import Mathlib

/-!
Verification of the google-maps-scraper lead-scraping engine.

Shallow embedding of the code in
`src/google-places-lead-scraper/main.js` (rate limiter, cohort slicing,
hexagonal geobox generation, checkpoint/resume loop, incremental output
sink) and `src/unnamed/part_004` (helpers: `normalizePhone`,
`extractEmails`, `filterBusinessEmails`, `enrichPlaceDetails`).

Conventions:
- JavaScript numbers are modelled as `ℚ` (exact arithmetic) where the code
  does arithmetic, and `ℕ` where the code counts.
- JavaScript strings are modelled as `List Char`; `String.toLowerCase` on
  the ASCII range is `Char.toLower` mapped over the list.
- `throw` is modelled as `Option`/`Except` failure; a `try/catch` is a
  `match` on that failure.
- External effects (HTTP responses, DNS MX lookups, the HTML parser) are
  oracles passed in as parameters; the control flow around them is the
  code's.
-/

namespace LeadScraper

/-! ## Definitions -/

/-! ### Cost guard (`APIRateLimiter`, main.js lines 30-88)

Only the fields read by `checkLimits`'s budget gate are modelled;
`lastCallTime`/`minInterval`/`startTime` only drive the wall-clock sleep
and logging, which have no bearing on the budget behaviour. -/

structure RateLimiter where
  apiCalls : ℕ
  maxDailyCost : ℚ
deriving DecidableEq

/-- `estimateCost` (main.js lines 73-87): fixed 60/35/5 call mix priced at
$32/$17/$5 per 1000 calls. -/
def estimateCost (rl : RateLimiter) : ℚ :=
  let textSearchCalls : ℚ := (rl.apiCalls : ℚ) * 0.6
  let placeDetailsCalls : ℚ := (rl.apiCalls : ℚ) * 0.35
  let geocodingCalls : ℚ := (rl.apiCalls : ℚ) * 0.05
  textSearchCalls / 1000 * 32 + placeDetailsCalls / 1000 * 17 + geocodingCalls / 1000 * 5

/-- `checkLimits` (main.js lines 39-64): fail (throw) when the estimated
cost has reached `maxDailyCost`, otherwise increment the call counter.
`none` models the thrown `Error`. -/
def checkLimits (rl : RateLimiter) : Option RateLimiter :=
  if rl.maxDailyCost ≤ estimateCost rl then none
  else some { rl with apiCalls := rl.apiCalls + 1 }

/-! ### Cohort slicing (`getCitiesForCohort`, main.js lines 182-189)

`Math.ceil(len / cohortCount)` equals `(len + cohortCount - 1) / cohortCount`
in `ℕ` for `cohortCount ≥ 1` (the claim's hypothesis range; the code is
meaningless at `cohortCount = 0`, where JS produces `Infinity`). -/

def getCitiesForCohort {α : Type} (allCities : List α) (cohortIndex cohortCount : ℕ) : List α :=
  let citiesPerCohort := (allCities.length + cohortCount - 1) / cohortCount
  let startIndex := cohortIndex * citiesPerCohort
  let endIndex := min (startIndex + citiesPerCohort) allCities.length
  (allCities.drop startIndex).take (endIndex - startIndex)

/-- Proof helper: the `i`-th contiguous slice of width `s`. -/
def sliceAt {α : Type} (l : List α) (s i : ℕ) : List α :=
  (l.drop (i * s)).take s

/-! ### Phone normalization (`normalizePhone`, part_004 lines 5-13) -/

/-- The digit subsequence of a string: `phone.replace(/\D/g, '')`. -/
def digitsOf (phone : List Char) : List Char :=
  phone.filter (fun c => c.isDigit)

/-- The two return-branches of `normalizePhone` applied after the
10-digit case prepended `'1'`: lines 10-12 of part_004. -/
def normalizeDigits (digits : List Char) : List Char :=
  if digits.length = 11 ∧ digits.head? = some '1' then '+' :: digits
  else if digits.take 2 = ['0', '0'] then '+' :: digits.drop 2
  else '+' :: digits

/-- `normalizePhone` (part_004 lines 5-13). The empty string is the only
falsy `String`, so `if (!phone) return ''` is the first branch. -/
def normalizePhone (phone : List Char) : List Char :=
  if phone = [] then []
  else if (digitsOf phone).length = 10 then normalizeDigits ('1' :: digitsOf phone)
  else normalizeDigits (digitsOf phone)

/-! ### Geo partitioner (`generateHexagonalGeoboxCenters`, main.js
lines 139-167)

`Math.cos`/`Math.sin` and the constant `Math.PI` are float-valued and
abstracted here as parameters `cosF`, `sinF`, `piQ` over exact `ℚ`; the
combinatorial structure (ring count via `Math.ceil`, ring order, six
bearings at `i·π/3` per ring, ring distance `ring × boxRadius`) is the
code's. The locals `dLat`/`dLng` computed at lines 141-142 are dead code
(never read) and are omitted. -/

def earthRadius : ℚ := 6378137

/-- The 6 points of one ring (main.js lines 152-164): bearings at 60°
intervals, at the angular offsets of distance `ring × boxRadius`. -/
def ringPoints (cosF sinF : ℚ → ℚ) (piQ centerLat centerLng boxRadius : ℚ)
    (ring : ℕ) : List (ℚ × ℚ) :=
  let ringRadius : ℚ := (ring : ℚ) * boxRadius
  let ringLat := ringRadius / earthRadius * (180 / piQ)
  let ringLng := ringRadius / (earthRadius * cosF (piQ * centerLat / 180)) * (180 / piQ)
  (List.range 6).map (fun (i : ℕ) =>
    (centerLat + ringLat * cosF ((i : ℚ) * piQ / 3),
     centerLng + ringLng * sinF ((i : ℚ) * piQ / 3)))

/-- `generateHexagonalGeoboxCenters` (main.js lines 139-167): the center
point first, then rings `1 .. ceil(radiusMeters / boxRadius)` in order. -/
def generateHexagonalGeoboxCenters (cosF sinF : ℚ → ℚ)
    (piQ centerLat centerLng radiusMeters boxRadius : ℚ) : List (ℚ × ℚ) :=
  (centerLat, centerLng) ::
    ((List.range' 1 (⌈radiusMeters / boxRadius⌉).toNat).map
      (ringPoints cosF sinF piQ centerLat centerLng boxRadius)).flatten

/-- The call-site selection (main.js lines 353-357 and 395-399): below
the 5000 m cell ceiling a single cell (the center itself) is used;
above it, the hexagonal covering with `boxRadius = 5000`. -/
def geoboxCentersFor (cosF sinF : ℚ → ℚ) (piQ lat lng radiusMeters : ℚ) :
    List (ℚ × ℚ) :=
  if radiusMeters > 5000 then
    generateHexagonalGeoboxCenters cosF sinF piQ lat lng radiusMeters 5000
  else [(lat, lng)]

/-! ### Raw email extraction (`extractEmails`, part_004 lines 134-199)

The five harvesting methods run cheerio selectors, regex matching and
base64 decoding over the fetched HTML — all external to the collection
logic. They are modelled as the incoming list of raw candidate strings
(one per `emails.add(...)` call site reached). Every one of those call
sites lowercases its string before adding it to the JS `Set` (lines 141,
159, 171-173, 181, 193); `Array.from` preserves the set's insertion
order and `.slice(0, 8)` caps the result. -/

/-- `String.toLowerCase` on the ASCII range. -/
def lowerL (s : List Char) : List Char := s.map Char.toLower

/-- `Set.add` with JS insertion-order semantics. -/
def addEmail (acc : List (List Char)) (e : List Char) : List (List Char) :=
  if e ∈ acc then acc else acc ++ [e]

/-- `extractEmails` collection pipeline over the harvested raw candidate
strings: lowercase each, dedupe in insertion order, cap at 8. -/
def extractEmails (candidates : List (List Char)) : List (List Char) :=
  (candidates.foldl (fun acc c => addEmail acc (lowerL c)) []).take 8

/-! ### Output sink and checkpoint interleaving (main.js lines 386-549)

State machine projection of the per-city driver loop: `batch` is
`batchLeads` (created empty per city, line 401), `flushed` the rows
already pushed to the dataset, `cp` the persisted
`(currentCityIndex, currentSearchTermIndex)` record. Leads are ℕ tags. -/

structure SinkState where
  batch : List ℕ
  flushed : List ℕ
  cp : ℕ × ℕ
deriving DecidableEq

/-- `SAVE_INTERVAL` (main.js line 234). -/
def SAVE_INTERVAL : ℕ := 50

/-- Accepting one candidate (main.js lines 505-519): push onto the batch;
on reaching `SAVE_INTERVAL`, enrich+flush the batch to the dataset and
save checkpoint `(cityIdx, termIdx)`, clearing the batch. -/
def acceptLead (cityIdx termIdx : ℕ) (s : SinkState) (lead : ℕ) : SinkState :=
  let b := s.batch ++ [lead]
  if SAVE_INTERVAL ≤ b.length then
    { batch := [], flushed := s.flushed ++ b, cp := (cityIdx, termIdx) }
  else
    { batch := b, flushed := s.flushed, cp := s.cp }

/-- One search term (main.js lines 404-528): accept its candidates, then
save checkpoint `(cityIdx, termIdx + 1)` (line 528) — without flushing
the partial batch first. -/
def processTermSink (cityIdx termIdx : ℕ) (accepted : List ℕ) (s : SinkState) : SinkState :=
  let s1 := accepted.foldl (acceptLead cityIdx termIdx) s
  { batch := s1.batch, flushed := s1.flushed, cp := (cityIdx, termIdx + 1) }

/-- End-of-city flush (main.js lines 533-542): push any leftover batch
to the dataset. -/
def flushRemaining (s : SinkState) : SinkState :=
  if s.batch = [] then s
  else { batch := [], flushed := s.flushed ++ s.batch, cp := s.cp }

/-- One city (main.js lines 386-549): process the terms in order, flush
any leftover batch (lines 533-542), then save checkpoint
`(cityIdx + 1, 0)` (line 546). -/
def processCitySink (cityIdx : ℕ) (terms : List (List ℕ)) (s : SinkState) : SinkState :=
  let s2 := flushRemaining (terms.enum.foldl (fun st p => processTermSink cityIdx p.1 p.2 st) s)
  { batch := s2.batch, flushed := s2.flushed, cp := (cityIdx + 1, 0) }

/-! ### Checkpoint resume and the search-work schedule
(main.js lines 333-343, 386-549)

A projection of the driver loop recording WHICH (original city index,
geobox position, term index) triples get a search performed. The
checkpoint record is mutated during the run (`saveCheckpoint`, lines
237-247, reassigns it), so later skip checks read the updated record:
the end-of-term save writes `(cityIdx, termIdx+1)` where `cityIdx` is
the POSITION in `targetCenters`, while the skip checks compare the
city's ORIGINAL index (`center.index`, line 342). Mid-batch saves (line
517) write `(cityIdx, termIdx)` but are always overwritten by the
end-of-term save before the next skip check, so they do not affect the
schedule and are omitted. -/

structure Checkpoint where
  currCity : ℕ
  currTerm : ℕ
deriving DecidableEq

/-- The term loop inside one geobox (main.js lines 404-529): a term is
skipped iff the city's original index equals the checkpoint's
`currentCityIndex` and `termIdx < currentSearchTermIndex` (line 408);
a processed term records its search work and then saves
`(pos, termIdx + 1)` (line 528). -/
def termLoop (origIdx pos geobox : ℕ) :
    List ℕ → Checkpoint → Checkpoint × List (ℕ × ℕ × ℕ)
  | [], cp => (cp, [])
  | t :: ts, cp =>
    if origIdx = cp.currCity ∧ t < cp.currTerm then
      termLoop origIdx pos geobox ts cp
    else
      let r := termLoop origIdx pos geobox ts ⟨pos, t + 1⟩
      (r.1, (origIdx, geobox, t) :: r.2)

/-- The geobox loop (main.js line 403): the same term list is iterated
for each geobox, threading the checkpoint through. -/
def geoLoop (origIdx pos : ℕ) (terms : List ℕ) :
    List ℕ → Checkpoint → Checkpoint × List (ℕ × ℕ × ℕ)
  | [], cp => (cp, [])
  | g :: gs, cp =>
    let r1 := termLoop origIdx pos g terms cp
    let r2 := geoLoop origIdx pos terms gs r1.1
    (r2.1, r1.2 ++ r2.2)

/-- The city loop (main.js lines 386-549): each entry is
`(position in targetCenters, original index)`; line 391 skips a city
whose original index is below the checkpoint's city, the geoboxes run,
and the end-of-city save writes `(position + 1, 0)` (line 546),
discarding the in-city checkpoint. -/
def cityLoop (terms geoboxes : List ℕ) :
    List (ℕ × ℕ) → Checkpoint → Checkpoint × List (ℕ × ℕ × ℕ)
  | [], cp => (cp, [])
  | c :: rest, cp =>
    if c.2 < cp.currCity then cityLoop terms geoboxes rest cp
    else
      let r1 := geoLoop c.2 c.1 terms geoboxes cp
      let r2 := cityLoop terms geoboxes rest ⟨c.1 + 1, 0⟩
      (r2.1, r1.2 ++ r2.2)

/-- A restarted run's search work: the geocode loop (lines 333-343)
drops every city with original index below the loaded checkpoint's
`currentCityIndex`, keeping original indices in `targetCenters`
(`index: i`, line 342); the remaining cities are processed in order
with `N` cities total, `L` search terms and `G` geoboxes per city. -/
def runWork (cp0 : Checkpoint) (numCities numTerms numGeo : ℕ) : List (ℕ × ℕ × ℕ) :=
  (cityLoop (List.range numTerms) (List.range numGeo)
    ((List.range numCities).filter (fun i => !decide (i < cp0.currCity))).enum cp0).2

/-! ### Budget-error propagation (main.js lines 414-418, 105-121;
part_004 lines 319-463)

The priced-call guards are modelled with an explicit trace of priced API
calls attempted; `none` models the thrown budget `Error` escaping the
enclosing function. -/

inductive APICall
  | textSearch
  | placeDetails
  | geocode
deriving DecidableEq

/-- The search-loop guard (main.js lines 414-418): `checkLimits` runs
before each page request with no enclosing `try`, so its error escapes
`Actor.main`; on success the (priced) text-search request is issued. -/
def searchLoopGuard (rl : RateLimiter) : Option (RateLimiter × List APICall) :=
  (checkLimits rl).elim none (fun rl2 => some (rl2, [APICall.textSearch]))

/-- `geocodeLocation` (main.js lines 105-121): a literal "lat,lng" input
short-circuits without any API call; otherwise `checkLimits` guards the
(priced) geocoding request, again with no enclosing `try`. -/
def geocodeLocation (isCoordLiteral : Bool) (rl : RateLimiter) :
    Option (RateLimiter × List APICall) :=
  if isCoordLiteral then some (rl, [])
  else (checkLimits rl).elim none (fun rl2 => some (rl2, [APICall.geocode]))

/-- The record mutated by `enrichPlaceDetails`; only the fields it
touches are modelled. -/
structure Place where
  website : List Char
  phone : List Char
  emailList : List (List Char)
deriving DecidableEq

/-- Oracle for the external effects inside `enrichPlaceDetails`:
the Place-Details response fields, whether that request succeeds, and
the homepage contact harvest (`none` = the homepage fetch/parse threw,
`some cs` = the contact list computed from the site). -/
structure DetailsOracle where
  websiteFromApi : List Char
  phoneFromApi : List Char
  detailsOk : Bool
  homepage : Option (List (List Char))
deriving DecidableEq

/-- Contact harvesting phase (part_004 lines 343-456): with a website,
the inner `try` either computes the contact list or degrades to `[]`;
without one, `emailList` is set to `[]`. -/
def harvestContacts (q : Place) (ora : DetailsOracle) : Place :=
  if q.website ≠ [] then
    match ora.homepage with
    | some cs => { q with emailList := cs }
    | none => { q with emailList := [] }
  else { q with emailList := [] }

/-- Steps after the rate-limit guard (part_004 lines 325-456): the
Place-Details call happens only when website AND phone are both missing
(line 327); its failure throws to the outer catch. -/
def enrichSteps (rl : Option RateLimiter) (p : Place) (ora : DetailsOracle) :
    Option Place × Option RateLimiter × List APICall :=
  if p.website = [] ∧ p.phone = [] then
    if ora.detailsOk then
      let q : Place :=
        { p with website := ora.websiteFromApi, phone := normalizePhone ora.phoneFromApi }
      (some (harvestContacts q ora), rl, [APICall.placeDetails])
    else (none, rl, [APICall.placeDetails])
  else (some (harvestContacts p ora), rl, [])

/-- The `try` body of `enrichPlaceDetails` (part_004 lines 320-456):
`checkLimits` runs first when a limiter is supplied (lines 322-324); its
throw aborts the body before any priced call. `none` in the first
component = an error escaping the body. -/
def enrichBody (rl : Option RateLimiter) (p : Place) (ora : DetailsOracle) :
    Option Place × Option RateLimiter × List APICall :=
  rl.elim (enrichSteps none p ora)
    (fun l => (checkLimits l).elim (none, some l, [])
      (fun l2 => enrichSteps (some l2) p ora))

/-- `enrichPlaceDetails` (part_004 lines 319-463): the catch-all wrapper
turns ANY body error into a degraded place (website, phone and contact
list cleared, lines 457-461) — it never rethrows. -/
def enrichPlaceDetails (rl : Option RateLimiter) (p : Place) (ora : DetailsOracle) :
    Place × Option RateLimiter × List APICall :=
  (enrichBody rl p ora).1.elim
    (⟨[], [], []⟩, (enrichBody rl p ora).2)
    (fun q => (q, (enrichBody rl p ora).2))

/-! ### Contact filtering (`filterBusinessEmails`, part_004 lines 211-313)

JS strings are `List Char`; the anchored regexes of the source are
implemented as executable predicates recognising exactly the same
language (noted per definition). The async MX lookup
(`validateDomainDNS`, lines 123-130) is an oracle `mx : List Char → Bool`. -/

/-- `pre` is a leading substring of `s` (`String.startsWith`). -/
def startsW : List Char → List Char → Bool
  | [], _ => true
  | _ :: _, [] => false
  | p :: ps, c :: cs => p == c && startsW ps cs

/-- `suf` is a trailing substring of `s` (`String.endsWith`). -/
def endsW (suf s : List Char) : Bool := startsW suf.reverse s.reverse

/-- `n` occurs inside `s` (`String.includes`). -/
def hasSub (n : List Char) : List Char → Bool
  | [] => n.isEmpty
  | c :: cs => startsW n (c :: cs) || hasSub n cs

/-- `String.split(sep)`: JS semantics (`''.split(x) = ['']`, separators
at the ends produce empty segments). -/
def splitOnC (sep : Char) : List Char → List (List Char)
  | [] => [[]]
  | c :: cs =>
    if c == sep then [] :: splitOnC sep cs
    else
      match splitOnC sep cs with
      | [] => [[c]]
      | h :: t => (c :: h) :: t

/-- Local part of `EMAIL_REGEX` (part_004 line 16):
`[a-zA-Z0-9]([a-zA-Z0-9._-]*[a-zA-Z0-9])?`. -/
def emailLocalOk : List Char → Bool
  | [] => false
  | c :: rest =>
    c.isAlphanum &&
      (rest.isEmpty ||
        ((rest.getLastD 'a').isAlphanum &&
          rest.dropLast.all (fun x => x.isAlphanum || x == '.' || x == '_' || x == '-')))

/-- Domain base of `EMAIL_REGEX`: `[a-zA-Z0-9]([a-zA-Z0-9.-]*[a-zA-Z0-9])?`. -/
def emailBaseOk : List Char → Bool
  | [] => false
  | c :: rest =>
    c.isAlphanum &&
      (rest.isEmpty ||
        ((rest.getLastD 'a').isAlphanum &&
          rest.dropLast.all (fun x => x.isAlphanum || x == '.' || x == '-')))

/-- TLD of `EMAIL_REGEX`: `[a-zA-Z]{2,}`. -/
def emailTldOk (t : List Char) : Bool := decide (2 ≤ t.length) && t.all Char.isAlpha

/-- Every way to cut a string at a `'.'` into (before, after). -/
def dotSplits : List Char → List (List Char × List Char)
  | [] => []
  | c :: cs =>
    (if c == '.' then [(([] : List Char), cs)] else [])
      ++ (dotSplits cs).map (fun p => (c :: p.1, p.2))

/-- `EMAIL_REGEX.test(email)` (part_004 lines 16, 32-34): one `'@'`,
a valid local part, and a domain that splits at some `'.'` into a valid
base and a trailing all-letter TLD (the regex engine's backtracking over
`\.` is the existential over dot positions). -/
def isValidEmailFormat (e : List Char) : Bool :=
  match splitOnC '@' e with
  | [l, d] => emailLocalOk l && (dotSplits d).any (fun p => emailBaseOk p.1 && emailTldOk p.2)
  | _ => false

/-- `DISPOSABLE_DOMAINS` (part_004 lines 19-29). -/
def DISPOSABLE_DOMAINS : List (List Char) :=
  ["10minutemail.com".data, "guerrillamail.com".data, "mailinator.com".data,
   "tempmail.org".data, "throwaway.email".data, "yopmail.com".data, "temp-mail.org".data,
   "sharklasers.com".data, "getairmail.com".data, "mailnesia.com".data, "tempr.email".data,
   "tmpmail.org".data, "maildrop.cc".data, "spam4.me".data, "fakeinbox.com".data,
   "mailmetrash.com".data, "trashmail.com".data, "mailnull.com".data, "spamspot.com".data,
   "spam.la".data, "example.com".data, "example.org".data, "test.com".data, "demo.com".data,
   "sample.com".data, "placeholder.com".data, "domain.com".data, "yourdomain.com".data,
   "company.com".data, "mail.com".data, "email.com".data, "fakemail.com".data]

/-- `isDisposableDomain` (part_004 lines 37-41): substring match. -/
def isDisposableDomain (domain : List Char) : Bool :=
  DISPOSABLE_DOMAINS.any (fun dd => hasSub (lowerL dd) (lowerL domain))

/-- `AGGREGATOR_DOMAINS` (part_004 lines 82-98). -/
def AGGREGATOR_DOMAINS : List (List Char) :=
  ["weomedia.com".data, "wixpress.com".data, "sentry-next.wixpress.com".data,
   "sentry.wixpress.com".data, "sentry.io".data, "wordpress.com".data, "godaddy.com".data,
   "mailchimp.com".data, "hubspot.com".data, "squareup.com".data, "weebly.com".data,
   "shopify.com".data, "squarespace.com".data, "google-analytics.com".data,
   "googletagmanager.com".data]

/-- `PERSONAL_PROVIDERS` (part_004 lines 100-104). -/
def PERSONAL_PROVIDERS : List (List Char) :=
  ["gmail.com".data, "yahoo.com".data, "outlook.com".data, "hotmail.com".data,
   "aol.com".data, "icloud.com".data, "protonmail.com".data, "zoho.com".data,
   "yandex.com".data, "mail.ru".data, "live.com".data, "msn.com".data, "me.com".data,
   "mac.com".data]

/-- A nonempty all-`[a-z]` word. -/
def lowerWord (s : List Char) : Bool := !s.isEmpty && s.all Char.isLower

/-- `/^[a-z]+\.[a-z]+@/` (part_004 line 52): anchored at the start only. -/
def businessPattern1 (e : List Char) : Bool :=
  let s1 := e.span Char.isLower
  !s1.1.isEmpty &&
    (match s1.2 with
     | '.' :: r2 =>
       let s2 := r2.span Char.isLower
       !s2.1.isEmpty && (match s2.2 with | '@' :: _ => true | _ => false)
     | _ => false)

def TLDS_WIDE : List (List Char) :=
  ["com".data, "org".data, "net".data, "co".data, "biz".data, "io".data, "ai".data,
   "app".data]

/-- `/^[a-z]+@[a-z]+\.(com|org|net|co|biz|io|ai|app)$/` (line 53). -/
def businessPattern2 (e : List Char) : Bool :=
  match splitOnC '@' e with
  | [l, d] =>
    lowerWord l &&
      (match splitOnC '.' d with
       | [b, t] => lowerWord b && TLDS_WIDE.contains t
       | _ => false)
  | _ => false

/-- `/^[a-z]+@[a-z]+[a-z0-9]*\.(com|org|net|co|biz|io|ai|app)$/` (line 54):
base = a letter then letters/digits. -/
def businessPattern3 (e : List Char) : Bool :=
  match splitOnC '@' e with
  | [l, d] =>
    lowerWord l &&
      (match splitOnC '.' d with
       | [b, t] =>
         (match b with
          | [] => false
          | c :: rest => c.isLower && rest.all (fun x => x.isLower || x.isDigit)) &&
           TLDS_WIDE.contains t
       | _ => false)
  | _ => false

/-- `/^[a-z]+@[a-z]+\.(co|biz|io|ai|app)$/` (line 55). -/
def businessPattern4 (e : List Char) : Bool :=
  match splitOnC '@' e with
  | [l, d] =>
    lowerWord l &&
      (match splitOnC '.' d with
       | [b, t] => lowerWord b &&
           ["co".data, "biz".data, "io".data, "ai".data, "app".data].contains t
       | _ => false)
  | _ => false

/-- `/^[a-z]+@[a-z]+\.(com|org|net)$/` (line 56). -/
def businessPattern5 (e : List Char) : Bool :=
  match splitOnC '@' e with
  | [l, d] =>
    lowerWord l &&
      (match splitOnC '.' d with
       | [b, t] => lowerWord b && ["com".data, "org".data, "net".data].contains t
       | _ => false)
  | _ => false

/-- `businessDomains` (part_004 lines 60-66), matched by substring. -/
def BUSINESS_DOMAINS : List (List Char) :=
  ["company.com".data, "business.com".data, "corp.com".data, "inc.com".data,
   "llc.com".data, "enterprise.com".data, "firm.com".data, "group.com".data,
   "team.com".data, "studio.com".data, "clinic.com".data, "salon.com".data,
   "spa.com".data, "gym.com".data, "fitness.com".data, "restaurant.com".data,
   "cafe.com".data, "bar.com".data, "pub.com".data, "shop.com".data, "store.com".data,
   "market.com".data, "office.com".data, "agency.com".data, "consulting.com".data]

/-- Substrings banned by the negative lookahead of the domain-pattern
regex (part_004 line 72). -/
def LOOKAHEAD_BANNED : List (List Char) :=
  ["gmail".data, "yahoo".data, "outlook".data, "hotmail".data, "aol".data,
   "icloud".data, "protonmail".data, "zoho".data, "yandex".data, "mail.ru".data,
   "live".data, "msn".data, "me".data, "mac".data]

/-- `/^(?!.*(gmail|...|mac)).*\.(com|org|net|co|biz|io|ai|app)$/` (line 72):
no banned substring anywhere, and the domain ends in a dot + listed TLD. -/
def hasBusinessDomainPattern (d : List Char) : Bool :=
  (!LOOKAHEAD_BANNED.any (fun b => hasSub b d)) &&
    TLDS_WIDE.any (fun t => endsW ('.' :: t) d)

/-- `isBusinessEmailPattern` (part_004 lines 44-79): patterns run on the
RAW email string; domain checks use the lowercased split. -/
def isBusinessEmailPattern (e : List Char) : Bool :=
  let parts := splitOnC '@' (lowerL e)
  let domain := (parts.drop 1).headD []
  let hasBusinessPattern :=
    businessPattern1 e || businessPattern2 e || businessPattern3 e ||
      businessPattern4 e || businessPattern5 e
  let hasBusinessDomain := BUSINESS_DOMAINS.any (fun bd => hasSub bd domain)
  let isPersonalProvider := PERSONAL_PROVIDERS.contains domain
  !isPersonalProvider &&
    (hasBusinessPattern || hasBusinessDomain || hasBusinessDomainPattern domain)

/-- A nonempty all-`[a-z]` word with `lo ≤ length ≤ hi`. -/
def lowBetween (lo hi : ℕ) (s : List Char) : Bool :=
  s.all Char.isLower && decide (lo ≤ s.length) && decide (s.length ≤ hi)

/-- `looksLikePersonNameLocalPart` (part_004 lines 106-120): the eight
anchored person-name regexes. -/
def looksLikePersonNameLocalPart (l : List Char) : Bool :=
  lowBetween 2 15 l
  || (match splitOnC '.' l with
      | [a, b] => lowBetween 2 15 a && lowBetween 2 15 b
      | _ => false)
  || (l.all Char.isLower && decide (4 ≤ l.length) && decide (l.length ≤ 30))
  || (match splitOnC '.' l with
      | [a, b] => lowBetween 1 1 a && lowBetween 2 15 b
      | _ => false)
  || (match splitOnC '.' l with
      | [a, b, c] => lowBetween 2 15 a && lowBetween 1 1 b && c.isEmpty
      | _ => false)
  || (match splitOnC '_' l with
      | [a, b] => lowBetween 2 15 a && lowBetween 2 15 b
      | _ => false)
  || (match splitOnC '-' l with
      | [a, b] => lowBetween 2 15 a && lowBetween 2 15 b
      | _ => false)
  || (let s := l.span Char.isLower
      lowBetween 2 15 s.1 && !s.2.isEmpty && s.2.all Char.isDigit
        && decide (s.2.length ≤ 3))

/-- Social-contact branch (part_004 lines 219-222), on the raw string. -/
def isSocialContact (e : List Char) : Bool :=
  startsW "instagram:".data e || startsW "facebook:".data e || startsW "twitter:".data e

/-- `!local || !domain || !isValidEmailFormat(email)` (line 227). -/
def basicInvalid (e l d : List Char) : Bool :=
  l.isEmpty || d.isEmpty || !isValidEmailFormat e

/-- File-extension reject (line 233): `/\.(png|...|docx)$/i`. -/
def FILE_EXTENSIONS : List (List Char) :=
  [".png".data, ".jpg".data, ".jpeg".data, ".gif".data, ".svg".data, ".webp".data,
   ".bmp".data, ".tiff".data, ".pdf".data, ".doc".data, ".docx".data]

def rejectFileExt (e : List Char) : Bool :=
  FILE_EXTENSIONS.any (fun x => endsW x (lowerL e))

/-- `[a-f0-9]` characters only. -/
def hexLike (l : List Char) : Bool :=
  l.all (fun c => c.isDigit || ('a' ≤ c && c ≤ 'f'))

/-- Hash-like local rejects (lines 236-237): `/^[a-f0-9]{24,}$/i` and
`/^[a-f0-9]{32}$/i`. -/
def rejectHex (l : List Char) : Bool :=
  (hexLike l && decide (24 ≤ l.length)) || (hexLike l && decide (l.length = 32))

/-- Long-random reject (line 240): `local.length > 15 && /^[a-z0-9]{15,}$/i`. -/
def rejectLongRandom (l : List Char) : Bool :=
  decide (15 < l.length) && decide (15 ≤ l.length) && l.all Char.isAlphanum

/-- Digit-heavy reject (line 243): more digits than half the length. -/
def rejectDigitHeavy (l : List Char) : Bool :=
  decide (l.length < 2 * (l.filter Char.isDigit).length)

/-- Sentry reject (line 246). -/
def rejectSentry (l d : List Char) : Bool :=
  hasSub "sentry".data d || hasSub "sentry".data l

/-- `placeholders` (lines 249-254), exact match on the lowercased email. -/
def PLACEHOLDERS : List (List Char) :=
  ["your@email.com".data, "user@domain.com".data, "hi@mystore.com".data,
   "test@domain.com".data, "demo@domain.com".data, "sample@domain.com".data,
   "email@example.com".data, "contact@domain.com".data, "mail@domain.com".data,
   "admin@domain.com".data, "info@domain.com".data, "example@domain.com".data,
   "test@test.com".data, "admin@admin.com".data, "user@user.com".data,
   "contact@contact.com".data]

def rejectPlaceholder (e : List Char) : Bool := PLACEHOLDERS.contains (lowerL e)

/-- `fillerPrefixes` (line 258), matched as leading substrings. -/
def FILLER_STARTS : List (List Char) :=
  ["filler".data, "placeholder".data, "temp".data, "temporary".data, "fake".data,
   "dummy".data, "sample".data]

def rejectFiller (l : List Char) : Bool := FILLER_STARTS.any (fun p => startsW p l)

/-- `devDomains` (line 262), matched by substring. -/
def DEV_DOMAINS : List (List Char) :=
  ["godaddy.com".data, "hostgator.com".data, "bluehost.com".data, "lab6.com".data,
   "dev.com".data, "localhost".data]

def rejectDevDomain (d : List Char) : Bool := DEV_DOMAINS.any (fun x => hasSub x d)

/-- `local === domain.split('.')[0]` (line 266). -/
def rejectRepeated (l d : List Char) : Bool := l == (splitOnC '.' d).headD []

/-- `excludedPrefixes` (lines 294-299), exact match on the local part. -/
def EXCLUDED_LOCALS : List (List Char) :=
  ["noreply".data, "no-reply".data, "donotreply".data, "do-not-reply".data,
   "bounce".data, "mailer-daemon".data, "postmaster".data, "abuse".data, "spam".data,
   "webmaster".data, "root".data, "sysadmin".data, "system".data, "daemon".data,
   "nobody".data, "www-data".data, "apache".data, "nginx".data, "ftp".data,
   "mail".data, "alerts".data, "notifications".data, "automated".data, "robot".data,
   "bot".data, "crawler".data, "spider".data]

def rejectExcludedLocal (l : List Char) : Bool := EXCLUDED_LOCALS.contains l

/-- The aggregator penalty (line 303): −50 when the domain ends with a
listed aggregator domain. -/
def aggPenalty (d : List Char) : Int :=
  if AGGREGATOR_DOMAINS.any (fun a => endsW a d) then 50 else 0

/-- The 3-tier score (part_004 lines 274-291), BEFORE the aggregator
penalty: business pattern → 100 (+10 same-domain bonus); person name on
a personal provider → 50; anything else → 10. -/
def tierScore (wd : Option (List Char)) (e l d : List Char) : Int :=
  if isBusinessEmailPattern e then
    100 + (match wd with
           | some w => if endsW w d then 10 else 0
           | none => 0)
  else if PERSONAL_PROVIDERS.contains d && looksLikePersonNameLocalPart l then 50
  else 10

/-- One iteration of the loop in `filterBusinessEmails` (part_004 lines
217-306): `none` = the email is rejected (`continue`), `some s` = it is
pushed with score `s`. The guards appear in the source's order. -/
def scoreEmail (mx : List Char → Bool) (wd : Option (List Char)) (e : List Char) :
    Option Int :=
  if isSocialContact e then some 30
  else
    let parts := splitOnC '@' (lowerL e)
    let l := parts.headD []
    let d := (parts.drop 1).headD []
    if basicInvalid e l d then none
    else if isDisposableDomain d then none
    else if rejectFileExt e then none
    else if rejectHex l then none
    else if rejectLongRandom l then none
    else if rejectDigitHeavy l then none
    else if rejectSentry l d then none
    else if rejectPlaceholder e then none
    else if rejectFiller l then none
    else if rejectDevDomain d then none
    else if rejectRepeated l d then none
    else if !mx d then none
    else if rejectExcludedLocal l then none
    else some (tierScore wd e l d - aggPenalty d)

/-- The scored `validEmails` array, in input order. -/
def validEmails (mx : List Char → Bool) (wd : Option (List Char)) (l : List (List Char)) :
    List (List Char × Int) :=
  l.filterMap (fun e => (scoreEmail mx wd e).map (fun s => (e, s)))

/-- Stable insertion for the descending-by-score order: a new (earlier)
element is placed before later elements of equal score, matching the
stable `Array.prototype.sort` with comparator `(a, b) => b.score - a.score`. -/
def insertDesc (x : List Char × Int) : List (List Char × Int) → List (List Char × Int)
  | [] => [x]
  | y :: ys => if y.2 ≤ x.2 then x :: y :: ys else y :: insertDesc x ys

def sortDesc : List (List Char × Int) → List (List Char × Int)
  | [] => []
  | x :: xs => insertDesc x (sortDesc xs)

/-- `filterBusinessEmails` (part_004 lines 211-313): score each entry,
sort by score descending (stable), keep the addresses, truncate to 6. -/
def filterBusinessEmails (mx : List Char → Bool) (wd : Option (List Char))
    (emailList : List (List Char)) : List (List Char) :=
  ((sortDesc (validEmails mx wd emailList)).map Prod.fst).take 6

/-- The score `filterBusinessEmails` assigns to an email (0 if rejected). -/
def scoreOf (mx : List Char → Bool) (wd : Option (List Char)) (e : List Char) : Int :=
  (scoreEmail mx wd e).getD 0

/-! ### Assembly of the filter's candidate list (part_004 lines 343-450)

After the capped `extractEmails` call (line 347), `enrichPlaceDetails`
keeps harvesting from the same homepage: method 1 pushes every page-text
regex match (line 355), method 2 every mailto/email/contact pattern
match (line 368), method 3 every footer/contact-section match (line 383)
— all `push`ed onto `rawEmails` uncapped and without lowercasing. The
regex/cheerio matching itself runs over external HTML and is modelled as
the incoming match lists, one per method; `extractEmails`' own five
harvesting methods are the `homepageCands` list as before. -/

/-- `Array.from(new Set(list))` (part_004 line 441): insertion-order
dedupe, with no lowercasing and no cap. -/
def dedupeL (l : List (List Char)) : List (List Char) :=
  l.foldl addEmail []

/-- The candidate list handed to the quality filter (part_004 lines
347-441): `rawEmails` starts as the capped `extractEmails` harvest, then
methods 1-3 push their matches uncapped; one contact/about page is
scraped only when that combined list is empty (lines 410-437); line 441
dedupes the union with the social handles — with no cap. -/
def allRawCandidates (homepageCands textMatches patternMatches sectionMatches
    contactPageCands socialContacts : List (List Char)) : List (List Char) :=
  let rawEmails := extractEmails homepageCands ++ textMatches ++ patternMatches
    ++ sectionMatches
  let moreEmails :=
    if rawEmails.length = 0 then extractEmails contactPageCands else []
  dedupeL (rawEmails ++ moreEmails ++ socialContacts)

/-- Line 450: `place.emailList = await filterBusinessEmails(allRaw, ...)`
— the assembled candidate list is the quality filter's direct argument. -/
def homepageEmailList (mx : List Char → Bool) (wd : Option (List Char))
    (homepageCands textMatches patternMatches sectionMatches
      contactPageCands socialContacts : List (List Char)) : List (List Char) :=
  filterBusinessEmails mx wd (allRawCandidates homepageCands textMatches
    patternMatches sectionMatches contactPageCands socialContacts)

/-! ## Theorems -/

/-! ### C1: the cost-guard budget gate -/

/-- The estimate is the claimed linear function of the call counter. -/
theorem estimateCost_eq (rl : RateLimiter) :
    estimateCost rl = (rl.apiCalls : ℚ) * ((0.6 * 32 + 0.35 * 17 + 0.05 * 5) / 1000) := by
  simp only [estimateCost]
  ring

/-- C1: `checkLimits` fails exactly when the estimated cost
`apiCalls × (0.6×32 + 0.35×17 + 0.05×5)/1000` has reached `maxDailyCost`;
on success it increments the counter by exactly one; and since the
estimate is monotone in the counter, a failing limiter keeps failing for
every later (larger) counter value at the same ceiling. -/
theorem checkLimits_budget_gate (rl : RateLimiter) :
    (checkLimits rl = none ↔
      rl.maxDailyCost ≤ (rl.apiCalls : ℚ) * ((0.6 * 32 + 0.35 * 17 + 0.05 * 5) / 1000))
    ∧ (∀ rl2, checkLimits rl = some rl2 → rl2.apiCalls = rl.apiCalls + 1)
    ∧ (∀ n, rl.apiCalls ≤ n → checkLimits rl = none →
        checkLimits ⟨n, rl.maxDailyCost⟩ = none) := by
  refine ⟨?_, ?_, ?_⟩
  · rw [← estimateCost_eq, checkLimits]
    by_cases h : rl.maxDailyCost ≤ estimateCost rl
    · rw [if_pos h]
      exact iff_of_true rfl h
    · rw [if_neg h]
      constructor
      · intro hc
        exact absurd hc (by simp)
      · intro hc
        exact absurd hc h
  · intro rl2 h
    rw [checkLimits] at h
    split at h
    · exact absurd h (by simp)
    · cases h
      rfl
  · intro n hn h
    rw [checkLimits] at h ⊢
    split at h
    · rename_i hcost
      rw [estimateCost_eq] at hcost
      have hmono : (rl.apiCalls : ℚ) * ((0.6 * 32 + 0.35 * 17 + 0.05 * 5) / 1000)
          ≤ (n : ℚ) * ((0.6 * 32 + 0.35 * 17 + 0.05 * 5) / 1000) := by
        have hcast : (rl.apiCalls : ℚ) ≤ (n : ℚ) := by exact_mod_cast hn
        have hc : (0 : ℚ) ≤ (0.6 * 32 + 0.35 * 17 + 0.05 * 5) / 1000 := by norm_num
        exact mul_le_mul_of_nonneg_right hcast hc
      rw [if_pos]
      calc rl.maxDailyCost ≤ (rl.apiCalls : ℚ) * ((0.6 * 32 + 0.35 * 17 + 0.05 * 5) / 1000) := hcost
        _ ≤ (n : ℚ) * ((0.6 * 32 + 0.35 * 17 + 0.05 * 5) / 1000) := hmono
        _ = estimateCost ⟨n, rl.maxDailyCost⟩ :=
            (estimateCost_eq ⟨n, rl.maxDailyCost⟩).symm
    · exact absurd h (by simp)

/-- The estimate of a 1000-call limiter, $25.40, meets a $20 ceiling. -/
theorem breached_cost :
    (⟨1000, 20⟩ : RateLimiter).maxDailyCost ≤
      (((⟨1000, 20⟩ : RateLimiter).apiCalls : ℚ)) * ((0.6 * 32 + 0.35 * 17 + 0.05 * 5) / 1000) := by
  norm_num

/-- Witness for C1 at a concrete state: with 1000 calls logged and a $20
ceiling the estimate is $25.40, so the gate fails, keeps failing at 2000
calls, and a fresh limiter increments 0 → 1. -/
theorem checkLimits_budget_gate_witness :
    checkLimits ⟨1000, 20⟩ = none ∧ checkLimits ⟨2000, 20⟩ = none ∧
      ∀ rl2, checkLimits ⟨0, 20⟩ = some rl2 → rl2.apiCalls = 0 + 1 := by
  have h1 : checkLimits ⟨1000, 20⟩ = none :=
    (checkLimits_budget_gate ⟨1000, 20⟩).1.mpr breached_cost
  have h2 : checkLimits ⟨2000, 20⟩ = none :=
    (checkLimits_budget_gate ⟨1000, 20⟩).2.2 2000 (by decide) h1
  exact ⟨h1, h2, (checkLimits_budget_gate ⟨0, 20⟩).2.1⟩

/-- A concrete breached limiter: 1000 calls estimate to $25.40 ≥ the $20
ceiling, so the gate throws. Shared by the C2 development below. -/
theorem breached_checkLimits : checkLimits ⟨1000, 20⟩ = none := by
  rw [checkLimits, if_pos]
  rw [estimateCost_eq]
  norm_num

attribute [irreducible] checkLimits estimateCost

/-! ### C5: cohort slicing covers the city list -/

/-- Clamped-end slicing is plain width-`s` slicing: the `min`/subtraction
in the source only re-derives `take`'s own clamping. -/
theorem getCitiesForCohort_eq_sliceAt {α : Type} (l : List α) (i k : ℕ) :
    getCitiesForCohort l i k = sliceAt l ((l.length + k - 1) / k) i := by
  simp only [getCitiesForCohort, sliceAt]
  generalize (l.length + k - 1) / k = q
  rcases le_or_lt (i * q) l.length with h | h
  · rw [List.take_eq_take]
    simp only [List.length_drop]
    omega
  · rw [List.drop_eq_nil_of_le h.le]
    simp

/-- Concatenating all width-`s` slices reproduces the list once the slices
reach past its end. -/
theorem sliceAt_concat {α : Type} (s : ℕ) :
    ∀ (k : ℕ) (l : List α), l.length ≤ k * s →
      ((List.range k).map (fun i => sliceAt l s i)).flatten = l := by
  intro k
  induction k with
  | zero =>
    intro l h
    simp only [Nat.zero_mul, Nat.le_zero, List.length_eq_zero] at h
    simp [h]
  | succ k ih =>
    intro l h
    have h' : l.length ≤ k * s + s := by
      rw [Nat.succ_mul] at h
      exact h
    rw [List.range_succ_eq_map]
    simp only [List.map_cons, List.map_map, List.flatten_cons]
    have hshift : ((fun i => sliceAt l s i) ∘ Nat.succ) = fun i => sliceAt (l.drop s) s i := by
      funext i
      simp only [Function.comp_apply, sliceAt, List.drop_drop, Nat.succ_eq_add_one]
      congr 2
      ring
    rw [hshift, ih (l.drop s) (by simp only [List.length_drop]; omega),
      show sliceAt l s 0 = l.take s by simp [sliceAt]]
    exact List.take_append_drop s l

/-- C5: for `1 ≤ cohortCount ≤ len`, concatenating
`getCitiesForCohort list i cohortCount` for `i = 0 .. cohortCount − 1`
reproduces the list exactly (hence no gaps, no overlaps, every city in
exactly one cohort, also when `len` is not divisible). -/
theorem cohort_concat_covers {α : Type} (l : List α) (k : ℕ)
    (h1 : 1 ≤ k) (_h2 : k ≤ l.length) :
    ((List.range k).map (fun i => getCitiesForCohort l i k)).flatten = l := by
  have hs : l.length ≤ k * ((l.length + k - 1) / k) := by
    have hd := Nat.div_add_mod (l.length + k - 1) k
    have hm := Nat.mod_lt (l.length + k - 1) (show 0 < k by omega)
    omega
  have hrw : ((List.range k).map (fun i => getCitiesForCohort l i k)).flatten
      = ((List.range k).map (fun i => sliceAt l ((l.length + k - 1) / k) i)).flatten := by
    congr 1
    exact List.map_congr_left (fun i _ => getCitiesForCohort_eq_sliceAt l i k)
  rw [hrw]
  exact sliceAt_concat _ k l hs

/-- Witness for C5 on a 3-city list split into 2 cohorts (sizes 2 and 1). -/
theorem cohort_concat_covers_witness :
    (1 ≤ 2 ∧ 2 ≤ ([10, 20, 30] : List ℕ).length) ∧
      ((List.range 2).map (fun i => getCitiesForCohort [10, 20, 30] i 2)).flatten
        = [10, 20, 30] :=
  ⟨⟨by decide, by decide⟩, cohort_concat_covers [10, 20, 30] 2 (by decide) (by decide)⟩

/-! ### C7: phone normalization -/

/-- Counterexample to C7 as stated: the empty input string returns the
empty string, which does not start with `'+'`. -/
theorem normalizePhone_empty_cex :
    normalizePhone "".data = "".data ∧ ¬ (normalizePhone "".data).head? = some '+' := by
  constructor <;> decide

theorem digitsOf_all_digits (p : List Char) : ∀ c ∈ digitsOf p, c.isDigit := by
  intro c hc
  exact (List.mem_filter.mp hc).2

theorem normalizeDigits_shape (d : List Char) (hd : ∀ c ∈ d, c.isDigit) :
    (normalizeDigits d).head? = some '+' ∧ (normalizeDigits d).tail.all Char.isDigit := by
  have hall : d.all Char.isDigit := List.all_eq_true.mpr hd
  have hdrop : (d.drop 2).all Char.isDigit :=
    List.all_eq_true.mpr (fun c hc => hd c (List.mem_of_mem_drop hc))
  rw [normalizeDigits]
  split
  · exact ⟨rfl, hall⟩
  · split
    · exact ⟨rfl, hdrop⟩
    · exact ⟨rfl, hall⟩

/-- C7 amended: for every NON-EMPTY input, the result starts with `'+'`
followed only by digits; every written form whose digit subsequence is a
10-digit number normalizes to `'+' '1'` + those digits, and every form
whose digit subsequence is 11 digits led by `'1'` (a `1`/`+1` country-code
form) normalizes to `'+'` + those digits — the same canonical string. -/
theorem normalizePhone_amended (p : List Char) :
    (p ≠ [] → (normalizePhone p).head? = some '+' ∧ (normalizePhone p).tail.all Char.isDigit)
    ∧ ((digitsOf p).length = 10 → normalizePhone p = '+' :: '1' :: digitsOf p)
    ∧ ((digitsOf p).length = 11 → (digitsOf p).head? = some '1' →
        normalizePhone p = '+' :: digitsOf p) := by
  refine ⟨?_, ?_, ?_⟩
  · intro hne
    rw [normalizePhone, if_neg hne]
    split
    · apply normalizeDigits_shape
      intro c hc
      rcases List.mem_cons.mp hc with h | h
      · rw [h]; decide
      · exact digitsOf_all_digits p c h
    · exact normalizeDigits_shape _ (digitsOf_all_digits p)
  · intro h10
    have hne : p ≠ [] := by
      intro h
      rw [h] at h10
      simp [digitsOf] at h10
    rw [normalizePhone, if_neg hne, if_pos h10, normalizeDigits, if_pos]
    exact ⟨by simp [h10], rfl⟩
  · intro h11 hhead
    have hne : p ≠ [] := by
      intro h
      rw [h] at h11
      simp [digitsOf] at h11
    rw [normalizePhone, if_neg hne, if_neg (by omega), normalizeDigits, if_pos]
    exact ⟨h11, hhead⟩

/-- Witness for C7 at `"(415) 555-1234"`: ten digits, canonical result
`"+14155551234"`. -/
theorem normalizePhone_amended_witness :
    (digitsOf "(415) 555-1234".data).length = 10 ∧
      normalizePhone "(415) 555-1234".data = "+14155551234".data :=
  ⟨by decide, by
    have h := (normalizePhone_amended "(415) 555-1234".data).2.1 (by decide)
    rw [h]
    decide⟩

/-! ### C10: raw extractor postcondition -/

theorem foldl_addEmail_inv (cands0 : List (List Char)) :
    ∀ (cs : List (List Char)) (acc : List (List Char)),
      (∀ c ∈ cs, c ∈ cands0) → acc.Nodup →
      (∀ e ∈ acc, ∃ c ∈ cands0, e = lowerL c) →
      (cs.foldl (fun a c => addEmail a (lowerL c)) acc).Nodup ∧
        ∀ e ∈ cs.foldl (fun a c => addEmail a (lowerL c)) acc, ∃ c ∈ cands0, e = lowerL c := by
  intro cs
  induction cs with
  | nil =>
    intro acc _ hnd hsub
    exact ⟨hnd, hsub⟩
  | cons c cs ih =>
    intro acc hcs hnd hsub
    simp only [List.foldl_cons]
    apply ih
    · intro x hx
      exact hcs x (List.mem_cons_of_mem c hx)
    · rw [addEmail]
      split
      · exact hnd
      · rename_i hnotmem
        rw [List.nodup_append]
        exact ⟨hnd, List.nodup_singleton _, by simpa using fun h => hnotmem h⟩
    · intro e he
      rw [addEmail] at he
      split at he
      · exact hsub e he
      · rcases List.mem_append.mp he with h | h
        · exact hsub e h
        · refine ⟨c, hcs c (List.mem_cons_self c cs), ?_⟩
          simpa using h

theorem dedupeL_acc (l acc : List (List Char)) (h : (acc ++ l).Nodup) :
    l.foldl addEmail acc = acc ++ l := by
  induction l generalizing acc with
  | nil => simp
  | cons c cs ih =>
    rw [List.foldl_cons, addEmail,
      if_neg (fun hmem => (List.nodup_append.mp h).2.2 hmem (List.mem_cons_self c cs)),
      ih (acc ++ [c]) (by simpa using h)]
    simp

theorem dedupeL_of_nodup (l : List (List Char)) (h : l.Nodup) : dedupeL l = l := by
  rw [dedupeL]
  have := dedupeL_acc l [] (by simpa using h)
  simpa using this

/-- C10 counterexample: a homepage whose page text carries nine distinct
emails. `extractEmails` caps its own harvest at 8 and drops the ninth —
but method 1 (part_004 line 355) pushes all nine page-text matches past
the cap, so the deduped list handed to `filterBusinessEmails` (line 450)
holds 9 homepage-derived candidates, and the ninth, the one the cap
dropped, even tops the filter's output. -/
theorem homepage_cap_bypass_cex :
    (extractEmails (["j1@gmail.com", "j2@gmail.com", "j3@gmail.com", "j4@gmail.com",
        "j5@gmail.com", "j6@gmail.com", "j7@gmail.com", "j8@gmail.com",
        "bob@google.com"].map String.data)).length = 8
    ∧ "bob@google.com".data ∉
        extractEmails (["j1@gmail.com", "j2@gmail.com", "j3@gmail.com", "j4@gmail.com",
          "j5@gmail.com", "j6@gmail.com", "j7@gmail.com", "j8@gmail.com",
          "bob@google.com"].map String.data)
    ∧ (allRawCandidates
        (["j1@gmail.com", "j2@gmail.com", "j3@gmail.com", "j4@gmail.com",
          "j5@gmail.com", "j6@gmail.com", "j7@gmail.com", "j8@gmail.com",
          "bob@google.com"].map String.data)
        (["j1@gmail.com", "j2@gmail.com", "j3@gmail.com", "j4@gmail.com",
          "j5@gmail.com", "j6@gmail.com", "j7@gmail.com", "j8@gmail.com",
          "bob@google.com"].map String.data) [] [] [] []).length = 9
    ∧ (homepageEmailList (fun _ => true) none
        (["j1@gmail.com", "j2@gmail.com", "j3@gmail.com", "j4@gmail.com",
          "j5@gmail.com", "j6@gmail.com", "j7@gmail.com", "j8@gmail.com",
          "bob@google.com"].map String.data)
        (["j1@gmail.com", "j2@gmail.com", "j3@gmail.com", "j4@gmail.com",
          "j5@gmail.com", "j6@gmail.com", "j7@gmail.com", "j8@gmail.com",
          "bob@google.com"].map String.data) [] [] [] []).headD []
        = "bob@google.com".data := by
  refine ⟨by decide, by decide, by decide, by decide⟩

/-- C10 (amended): `extractEmails` itself returns at most 8
pairwise-distinct entries, each the lowercasing of a harvested
candidate, and this cap is applied before any scoring; but it bounds the
candidates reaching the quality filter only when the three later
homepage harvesting methods, the contact-page scrape and the social
handles contribute nothing — then, and only by that degeneracy, the
assembled filter input is exactly the capped list. -/
theorem extractEmails_cap_amended (candidates : List (List Char)) :
    (extractEmails candidates).length ≤ 8
    ∧ (extractEmails candidates).Nodup
    ∧ (∀ e ∈ extractEmails candidates, ∃ c ∈ candidates, e = lowerL c)
    ∧ allRawCandidates candidates [] [] [] [] [] = extractEmails candidates := by
  have hinv := foldl_addEmail_inv candidates candidates []
    (fun c hc => hc) List.nodup_nil (by simp)
  have hnd : (extractEmails candidates).Nodup :=
    hinv.1.sublist (List.take_sublist _ _)
  refine ⟨?_, hnd, ?_, ?_⟩
  · rw [extractEmails, List.length_take]
    exact min_le_left _ _
  · intro e he
    exact hinv.2 e (List.take_subset _ _ he)
  · unfold allRawCandidates
    have h0 : extractEmails ([] : List (List Char)) = [] := rfl
    simp only [List.append_nil, h0, ite_self]
    exact dedupeL_of_nodup _ hnd

/-! ### C3: checkpoint vs. flushed output -/

/-- Counterexample to C3 as stated: one term of city 0 accepts one
candidate (below the 50-lead flush threshold); the checkpoint then
advances past that term to `(0, 1)` while the candidate still sits
unflushed in the in-memory batch and nothing has reached the sink. -/
theorem term_checkpoint_unflushed_cex :
    (processTermSink 0 0 [7] ⟨[], [], (0, 0)⟩).cp = (0, 1) ∧
      (processTermSink 0 0 [7] ⟨[], [], (0, 0)⟩).flushed = [] ∧
      (processTermSink 0 0 [7] ⟨[], [], (0, 0)⟩).batch = [7] := by
  decide

theorem acceptLead_flushed_batch (cityIdx termIdx : ℕ) (s : SinkState) (lead : ℕ) :
    (acceptLead cityIdx termIdx s lead).flushed ++ (acceptLead cityIdx termIdx s lead).batch
      = s.flushed ++ s.batch ++ [lead] := by
  rw [acceptLead]
  split <;> simp

theorem foldl_acceptLead_flushed_batch (cityIdx termIdx : ℕ) :
    ∀ (ls : List ℕ) (s : SinkState),
      (ls.foldl (acceptLead cityIdx termIdx) s).flushed
          ++ (ls.foldl (acceptLead cityIdx termIdx) s).batch
        = s.flushed ++ s.batch ++ ls := by
  intro ls
  induction ls with
  | nil => intro s; simp
  | cons l ls ih =>
    intro s
    simp only [List.foldl_cons]
    rw [ih, acceptLead_flushed_batch]
    simp

theorem processTermSink_flushed_batch (cityIdx termIdx : ℕ) (accepted : List ℕ)
    (s : SinkState) :
    (processTermSink cityIdx termIdx accepted s).flushed
        ++ (processTermSink cityIdx termIdx accepted s).batch
      = s.flushed ++ s.batch ++ accepted := by
  rw [processTermSink]
  exact foldl_acceptLead_flushed_batch cityIdx termIdx accepted s

theorem foldl_processTermSink_flushed_batch (cityIdx : ℕ) :
    ∀ (ps : List (ℕ × List ℕ)) (s : SinkState),
      ((ps.foldl (fun st p => processTermSink cityIdx p.1 p.2 st) s).flushed
          ++ (ps.foldl (fun st p => processTermSink cityIdx p.1 p.2 st) s).batch)
        = s.flushed ++ s.batch ++ (ps.map Prod.snd).flatten := by
  intro ps
  induction ps with
  | nil => intro s; simp
  | cons p ps ih =>
    intro s
    simp only [List.foldl_cons, List.map_cons, List.flatten_cons]
    rw [ih, processTermSink_flushed_batch]
    simp

theorem flushRemaining_batch (s : SinkState) : (flushRemaining s).batch = [] := by
  rw [flushRemaining]
  split
  · assumption
  · rfl

theorem flushRemaining_flushed (s : SinkState) :
    (flushRemaining s).flushed = s.flushed ++ s.batch := by
  rw [flushRemaining]
  split
  · rename_i hb
    rw [hb, List.append_nil]
  · rfl

/-- C3 amended: the invariant holds at CITY boundaries — when the
checkpoint advances past a whole city to `(cityIdx + 1, 0)`, the batch is
empty and every candidate accepted during the city (plus anything already
batched on entry) has been flushed to the sink, because the end-of-city
flush precedes that save. The per-TERM advance gives no such guarantee
(see the counterexample): a term's trailing partial batch may still be
unflushed when the checkpoint moves past the term. -/
theorem city_checkpoint_flush_amended (cityIdx : ℕ) (terms : List (List ℕ)) (s : SinkState) :
    (processCitySink cityIdx terms s).cp = (cityIdx + 1, 0) ∧
      (processCitySink cityIdx terms s).batch = [] ∧
      (processCitySink cityIdx terms s).flushed = s.flushed ++ s.batch ++ terms.flatten := by
  have h := foldl_processTermSink_flushed_batch cityIdx terms.enum s
  rw [List.enum_map_snd] at h
  simp only [processCitySink]
  refine ⟨by trivial, flushRemaining_batch _, ?_⟩
  rw [flushRemaining_flushed]
  exact h

/-! ### C2: budget breach propagation -/

/-- Unfolding of `enrichBody` at a supplied limiter. -/
theorem enrichBody_someEq (l : RateLimiter) (p : Place) (ora : DetailsOracle) :
    enrichBody (some l) p ora =
      (checkLimits l).elim (none, some l, [])
        (fun l2 => enrichSteps (some l2) p ora) := rfl

/-- Counterexample to C2 as stated: with the budget breached (estimate
$25.40 ≥ $20 ceiling), `enrichPlaceDetails` does NOT abort the run — its
catch-all absorbs the fatal budget error into a normal degraded result
with an empty contact list (and cleared website/phone), leaving the
limiter unchanged. -/
theorem enrich_absorbs_budget_cex :
    checkLimits ⟨1000, 20⟩ = none ∧
      enrichPlaceDetails (some ⟨1000, 20⟩) ⟨"site.com".data, [], []⟩
          ⟨[], [], true, some ["a@b.com".data]⟩
        = (⟨[], [], []⟩, some ⟨1000, 20⟩, []) := by
  refine ⟨breached_checkLimits, ?_⟩
  have hb : enrichBody (some ⟨1000, 20⟩) ⟨"site.com".data, [], []⟩
      ⟨[], [], true, some ["a@b.com".data]⟩ = (none, some ⟨1000, 20⟩, []) := by
    rw [enrichBody_someEq, breached_checkLimits]
    rfl
  unfold enrichPlaceDetails
  rw [hb]
  rfl

/-- C2 amended: once the budget is breached, the error from `checkLimits`
propagates out of the search-loop guard and the geocoding guard (both
unguarded by any `try`, so the run terminates there) and no priced API
call is attempted at a breached guard; `enrichPlaceDetails`, however,
absorbs the breach: it returns a degraded place with an empty contact
list instead of propagating, also attempting no priced call, so a run
only terminates at the next guard outside enrichment. -/
theorem budget_breach_amended (rl : RateLimiter) (h : checkLimits rl = none) :
    searchLoopGuard rl = none
    ∧ geocodeLocation false rl = none
    ∧ ∀ (p : Place) (ora : DetailsOracle),
        (enrichPlaceDetails (some rl) p ora).1 = ⟨[], [], []⟩ ∧
          (enrichPlaceDetails (some rl) p ora).2.2 = [] := by
  refine ⟨?_, ?_, ?_⟩
  · unfold searchLoopGuard
    rw [h]
    rfl
  · unfold geocodeLocation
    rw [h]
    rfl
  · intro p ora
    have hb : enrichBody (some rl) p ora = (none, some rl, []) := by
      rw [enrichBody_someEq, h]
      rfl
    unfold enrichPlaceDetails
    rw [hb]
    exact ⟨rfl, rfl⟩

/-! ### C6: hexagonal geobox structure -/

theorem ringPoints_length (cosF sinF : ℚ → ℚ) (piQ clat clng box : ℚ) (ring : ℕ) :
    (ringPoints cosF sinF piQ clat clng box ring).length = 6 := by
  simp only [ringPoints, List.length_map, List.length_range]

theorem flatten_sixes_length {α : Type} (f : ℕ → List α) (hf : ∀ x, (f x).length = 6) :
    ∀ (n a : ℕ), (((List.range' a n).map f).flatten).length = 6 * n := by
  intro n
  induction n with
  | zero => intro a; simp
  | succ n ih =>
    intro a
    rw [List.range'_succ]
    simp only [List.map_cons, List.flatten_cons, List.length_append, hf a, ih (a + 1)]
    ring

theorem flatten_sixes_getElem {α : Type} (f : ℕ → List α) (hf : ∀ x, (f x).length = 6) :
    ∀ (n a i j : ℕ), i < n → j < 6 →
      (((List.range' a n).map f).flatten)[6 * i + j]? = (f (a + i))[j]? := by
  intro n
  induction n with
  | zero => intro a i j hi _; omega
  | succ n ih =>
    intro a i j hi hj
    rw [List.range'_succ]
    simp only [List.map_cons, List.flatten_cons]
    rcases Nat.eq_zero_or_pos i with hz | hp
    · subst hz
      rw [List.getElem?_append_left (by rw [hf a]; omega)]
      simp
    · obtain ⟨i2, rfl⟩ : ∃ i2, i = i2 + 1 := ⟨i - 1, by omega⟩
      rw [List.getElem?_append_right (by rw [hf a]; omega)]
      rw [hf a, show 6 * (i2 + 1) + j - 6 = 6 * i2 + j by omega]
      rw [ih (a + 1) i2 j (by omega) hj]
      have harith : a + 1 + i2 = a + (i2 + 1) := by omega
      rw [harith]

/-- C6: below the 5000 m cell ceiling exactly one search cell is used —
the center itself; above it, the covering has exactly
`1 + 6·⌈radiusMeters/5000⌉` centers, the input center first, then for
each ring `i+1` (distance `(i+1)·5000` from the center) six points at
the 60°-interval bearings `j·π/3`, in ring order. -/
theorem geobox_centers_structure (cosF sinF : ℚ → ℚ) (piQ lat lng r : ℚ) :
    (r ≤ 5000 → geoboxCentersFor cosF sinF piQ lat lng r = [(lat, lng)])
    ∧ (5000 < r →
        (geoboxCentersFor cosF sinF piQ lat lng r).length = 1 + 6 * (⌈r / 5000⌉).toNat
        ∧ (geoboxCentersFor cosF sinF piQ lat lng r).head? = some (lat, lng)
        ∧ ∀ i j : ℕ, i < (⌈r / 5000⌉).toNat → j < 6 →
            (geoboxCentersFor cosF sinF piQ lat lng r)[1 + (6 * i + j)]? =
              some (lat + (((1 + i : ℕ) : ℚ) * 5000) / earthRadius * (180 / piQ)
                      * cosF ((j : ℚ) * piQ / 3),
                    lng + (((1 + i : ℕ) : ℚ) * 5000)
                        / (earthRadius * cosF (piQ * lat / 180)) * (180 / piQ)
                      * sinF ((j : ℚ) * piQ / 3))) := by
  constructor
  · intro h
    rw [geoboxCentersFor, if_neg (not_lt.mpr h)]
  · intro h
    rw [geoboxCentersFor, if_pos h]
    refine ⟨?_, rfl, ?_⟩
    · rw [generateHexagonalGeoboxCenters]
      simp only [List.length_cons]
      rw [flatten_sixes_length _ (ringPoints_length cosF sinF piQ lat lng 5000)]
      omega
    · intro i j hi hj
      rw [generateHexagonalGeoboxCenters]
      rw [show (1 + (6 * i + j)) = (6 * i + j) + 1 by omega, List.getElem?_cons_succ]
      rw [flatten_sixes_getElem _ (ringPoints_length cosF sinF piQ lat lng 5000) _ 1 i j hi hj]
      rw [ringPoints]
      simp [List.getElem?_range, hj]

/-- ℚ facts for the C6 witness, at target radius 12000 m: the radius
exceeds the cell ceiling and needs ⌈12000/5000⌉ = 3 rings. -/
theorem geobox_witness_radius : (5000 : ℚ) < 12000 := by norm_num

theorem geobox_witness_rings : ((⌈(12000 : ℚ) / 5000⌉).toNat) = 3 := by
  have h : (⌈(12000 : ℚ) / 5000⌉) = 3 := by
    rw [Int.ceil_eq_iff]
    constructor <;> norm_num
  rw [h]
  rfl

theorem geobox_witness_small : (4000 : ℚ) ≤ 5000 := by norm_num

/-- Witness for C6 at radius 12000 m (19 centers, center first) and at
radius 4000 m (single cell). -/
theorem geobox_centers_structure_witness :
    (geoboxCentersFor (fun _ => 1) (fun _ => 0) 3 10 20 4000 = [(10, 20)])
    ∧ (geoboxCentersFor (fun _ => 1) (fun _ => 0) 3 10 20 12000).length = 1 + 6 * 3
    ∧ (geoboxCentersFor (fun _ => 1) (fun _ => 0) 3 10 20 12000).head? = some (10, 20) := by
  have h1 := (geobox_centers_structure (fun _ => 1) (fun _ => 0) 3 10 20 4000).1
    geobox_witness_small
  have h2 := (geobox_centers_structure (fun _ => 1) (fun _ => 0) 3 10 20 12000).2
    geobox_witness_radius
  refine ⟨h1, ?_, h2.2.1⟩
  rw [h2.1, geobox_witness_rings]

/-- Witness for C2's amended theorem at the breached limiter
⟨1000 calls, $20⟩. -/
theorem budget_breach_amended_witness :
    searchLoopGuard ⟨1000, 20⟩ = none
    ∧ geocodeLocation false ⟨1000, 20⟩ = none
    ∧ (enrichPlaceDetails (some ⟨1000, 20⟩) ⟨[], [], []⟩ ⟨[], [], false, none⟩).1
        = ⟨[], [], []⟩ := by
  have h := budget_breach_amended ⟨1000, 20⟩ breached_checkLimits
  exact ⟨h.1, h.2.1, (h.2.2 ⟨[], [], []⟩ ⟨[], [], false, none⟩).1⟩

/-! ### C4: checkpoint resume -/

/-- Counterexample to C4 as stated, at the spec's own example checkpoint
(city 2, term 3), 3 cities, 4 terms, and 2 geoboxes per city: the
restarted run PERFORMS search work for term 0 < T = 3 in the resume city
2 (in the second geobox), because the end-of-term checkpoint save
overwrote the record the skip check compares against. -/
theorem resume_multi_geobox_cex :
    (0 : ℕ) < 3 ∧ (2, 1, 0) ∈ runWork ⟨2, 3⟩ 3 4 2 := by
  constructor
  · decide
  · decide

theorem range'_split (s m n : ℕ) :
    List.range' s (m + n) = List.range' s m ++ List.range' (s + m) n := by
  induction m generalizing s with
  | zero => simp
  | succ m ih =>
    rw [show m + 1 + n = (m + n) + 1 by omega, List.range'_succ, ih (s + 1),
      List.range'_succ, List.cons_append, show s + 1 + m = s + (m + 1) by omega]

theorem filter_range_not_lt (N C : ℕ) :
    (List.range N).filter (fun i => !decide (i < C)) = List.range' C (N - C) := by
  induction N with
  | zero => simp
  | succ N ih =>
    rw [List.range_succ, List.filter_append, ih]
    by_cases h : N < C
    · rw [show N + 1 - C = 0 by omega, show N - C = 0 by omega]
      simp [h]
    · rw [show N + 1 - C = (N - C) + 1 by omega, List.range'_concat]
      simp only [List.filter_cons, List.filter_nil]
      rw [if_pos (by simp [h])]
      congr 2
      omega

theorem enumFrom_range' :
    ∀ (k C p : ℕ), (List.range' C k).enumFrom p
      = (List.range k).map (fun q => (p + q, C + q)) := by
  intro k
  induction k with
  | zero => intro C p; rfl
  | succ k ih =>
    intro C p
    rw [List.range'_succ, List.range_succ_eq_map]
    simp only [List.enumFrom, List.map_cons, List.map_map]
    rw [ih (C + 1) (p + 1)]
    have hmap : (List.map ((fun q => (p + q, C + q)) ∘ Nat.succ) (List.range k))
        = List.map (fun q => (p + 1 + q, C + 1 + q)) (List.range k) := by
      apply List.map_congr_left
      intro q _
      simp only [Function.comp_apply, Nat.succ_eq_add_one]
      rw [show p + (q + 1) = p + 1 + q by omega, show C + (q + 1) = C + 1 + q by omega]
    rw [hmap]
    simp

theorem termLoop_skip (i pos g : ℕ) :
    ∀ (pre ts : List ℕ) (cp : Checkpoint), i = cp.currCity →
      (∀ t ∈ pre, t < cp.currTerm) →
      termLoop i pos g (pre ++ ts) cp = termLoop i pos g ts cp := by
  intro pre
  induction pre with
  | nil => intro ts cp _ _; rfl
  | cons t pre ih =>
    intro ts cp h1 h2
    rw [List.cons_append]
    simp only [termLoop]
    rw [if_pos ⟨h1, h2 t (List.mem_cons_self t pre)⟩]
    exact ih ts cp h1 (fun x hx => h2 x (List.mem_cons_of_mem t hx))

theorem termLoop_work (i pos g : ℕ) :
    ∀ (k t0 : ℕ) (cp : Checkpoint), (i = cp.currCity → cp.currTerm ≤ t0) →
      (termLoop i pos g (List.range' t0 k) cp).2
        = (List.range' t0 k).map (fun t => (i, g, t)) := by
  intro k
  induction k with
  | zero => intro t0 cp _; rfl
  | succ k ih =>
    intro t0 cp h
    rw [List.range'_succ, List.map_cons]
    simp only [termLoop]
    rw [if_neg (by
      rintro ⟨h1, h2⟩
      exact absurd (h h1) (not_le.mpr h2))]
    rw [ih (t0 + 1) ⟨pos, t0 + 1⟩ (fun _ => le_refl _)]

/-- The first (resume) city's term loop: terms below `T` are skipped,
terms `T ..` are processed. -/
theorem termLoop_first (C T pos g L : ℕ) :
    (termLoop C pos g (List.range L) ⟨C, T⟩).2
      = (List.range' T (L - T)).map (fun t => (C, g, t)) := by
  rcases le_or_lt T L with h | h
  · obtain ⟨d, rfl⟩ : ∃ d, L = T + d := ⟨L - T, by omega⟩
    rw [show T + d - T = d by omega, List.range_eq_range', range'_split 0 T d,
      Nat.zero_add]
    rw [termLoop_skip C pos g _ _ ⟨C, T⟩ rfl
      (fun t ht => by rw [List.mem_range'_1] at ht; show t < T; omega)]
    exact termLoop_work C pos g d T ⟨C, T⟩ (fun _ => le_refl _)
  · rw [show L - T = 0 by omega]
    rw [List.range_eq_range']
    have hs := termLoop_skip C pos g (List.range' 0 L) [] ⟨C, T⟩ rfl
      (fun t ht => by rw [List.mem_range'_1] at ht; show t < T; omega)
    rw [List.append_nil] at hs
    rw [hs]
    rfl

/-- With a single geobox, the geobox loop is one term loop. -/
theorem geoLoop_single (i pos : ℕ) (terms : List ℕ) (cp : Checkpoint) :
    (geoLoop i pos terms [0] cp).2 = (termLoop i pos 0 terms cp).2 := by
  simp only [geoLoop]
  rw [List.append_nil]

/-- Cities entered with a clean `(pos, 0)` checkpoint (everything after
the resume city) process all their terms. -/
theorem cityLoop_clean (L C : ℕ) :
    ∀ (k p0 : ℕ),
      (cityLoop (List.range L) [0]
        ((List.range k).map (fun q => (p0 + q, C + (p0 + q)))) ⟨p0, 0⟩).2
        = ((List.range k).map
            (fun q => (List.range L).map (fun t => (C + (p0 + q), 0, t)))).flatten := by
  intro k
  induction k with
  | zero => intro p0; rfl
  | succ k ih =>
    intro p0
    rw [List.range_succ_eq_map]
    simp only [List.map_cons, List.map_map, List.flatten_cons, cityLoop]
    rw [if_neg (by simp)]
    dsimp only
    rw [geoLoop_single]
    have ht : (termLoop (C + (p0 + 0)) (p0 + 0) 0 (List.range L) ⟨p0, 0⟩).2
        = (List.range L).map (fun t => (C + (p0 + 0), 0, t)) := by
      rw [List.range_eq_range']
      exact termLoop_work _ _ 0 L 0 ⟨p0, 0⟩ (fun _ => le_refl _)
    rw [show p0 + 0 = p0 by omega] at ht ⊢
    rw [ht]
    have hmap : (List.map ((fun q => (p0 + q, C + (p0 + q))) ∘ Nat.succ) (List.range k))
        = (List.range k).map (fun q => (p0 + 1 + q, C + (p0 + 1 + q))) := by
      apply List.map_congr_left
      intro q _
      simp only [Function.comp_apply, Nat.succ_eq_add_one]
      rw [show p0 + (q + 1) = p0 + 1 + q by omega]
    rw [hmap, ih (p0 + 1)]
    have hmap2 : (List.map ((fun q => List.map (fun t => (C + (p0 + q), 0, t))
          (List.range L)) ∘ Nat.succ) (List.range k))
        = (List.range k).map
            (fun q => (List.range L).map (fun t => (C + (p0 + 1 + q), 0, t))) := by
      apply List.map_congr_left
      intro q _
      simp only [Function.comp_apply, Nat.succ_eq_add_one]
      rw [show p0 + (q + 1) = p0 + 1 + q by omega]
    rw [hmap2]

/-- The restarted run's full schedule with a single geobox per city. -/
theorem runWork_single_eq (C T N L : ℕ) (h : C < N) :
    runWork ⟨C, T⟩ N L 1 =
      (List.range' T (L - T)).map (fun t => (C, 0, t))
        ++ ((List.range (N - C - 1)).map
            (fun q => (List.range L).map (fun t => (C + 1 + q, 0, t)))).flatten := by
  rw [runWork, filter_range_not_lt]
  have he : (List.range' C (N - C)).enum
      = (List.range (N - C)).map (fun q => (q, C + q)) := by
    rw [show (List.range' C (N - C)).enum = (List.range' C (N - C)).enumFrom 0 from rfl,
      enumFrom_range' (N - C) C 0]
    apply List.map_congr_left
    intro q _
    rw [Nat.zero_add]
  obtain ⟨k, hk⟩ : ∃ k, N - C = k + 1 := ⟨N - C - 1, by omega⟩
  rw [show N - C - 1 = k by omega, he, hk, show List.range 1 = [0] from rfl,
    List.range_succ_eq_map]
  simp only [List.map_cons, List.map_map]
  simp only [cityLoop]
  rw [if_neg (by simp)]
  dsimp only
  rw [geoLoop_single]
  have h1 : (termLoop (C + 0) 0 0 (List.range L) ⟨C, T⟩).2
      = (List.range' T (L - T)).map (fun t => (C, 0, t)) := by
    rw [show C + 0 = C by omega]
    exact termLoop_first C T 0 0 L
  rw [h1]
  have hmap : (List.map ((fun q => (q, C + q)) ∘ Nat.succ) (List.range k))
      = (List.range k).map (fun q => (1 + q, C + (1 + q))) := by
    apply List.map_congr_left
    intro q _
    simp only [Function.comp_apply, Nat.succ_eq_add_one]
    rw [show q + 1 = 1 + q by omega]
  rw [hmap, Nat.zero_add, cityLoop_clean L C k 1]
  congr 1
  congr 1
  apply List.map_congr_left
  intro q _
  apply List.map_congr_left
  intro t _
  rw [show C + (1 + q) = C + 1 + q by omega]

/-- C4 amended: PROVIDED each city is searched with a single geo cell
(`radiusMeters ≤ 5000`, so `geoboxCenters` is one box), a restarted run
with saved checkpoint (C, T) performs search work for exactly the
triples with city index ≥ C, any term index for cities above C, and
term index ≥ T within the resume city C — no work below the checkpoint,
everything at or after it. With multiple geoboxes per city this fails
(see the counterexample): the in-run checkpoint overwrite invalidates
the skip comparison from the second geobox on. -/
theorem resume_single_geobox_amended (C T N L i g t : ℕ) :
    ((i, g, t) ∈ runWork ⟨C, T⟩ N L 1) ↔
      (g = 0 ∧ t < L ∧ C ≤ i ∧ i < N ∧ (i = C → T ≤ t)) := by
  rcases lt_or_ge C N with h | h
  · rw [runWork_single_eq C T N L h]
    constructor
    · intro hm
      rcases List.mem_append.mp hm with hm | hm
      · rcases List.mem_map.mp hm with ⟨t2, ht2, heq⟩
        rw [List.mem_range'_1] at ht2
        simp only [Prod.mk.injEq] at heq
        omega
      · rcases List.mem_flatten.mp hm with ⟨l, hl, hml⟩
        rcases List.mem_map.mp hl with ⟨q, hq, rfl⟩
        rcases List.mem_map.mp hml with ⟨t2, ht2, heq⟩
        rw [List.mem_range] at hq ht2
        simp only [Prod.mk.injEq] at heq
        omega
    · rintro ⟨rfl, ht, hCi, hiN, hiT⟩
      by_cases hc : i = C
      · subst hc
        refine List.mem_append.mpr (Or.inl (List.mem_map.mpr ⟨t, ?_, rfl⟩))
        rw [List.mem_range'_1]
        exact ⟨hiT rfl, by omega⟩
      · refine List.mem_append.mpr (Or.inr (List.mem_flatten.mpr
          ⟨(List.range L).map (fun t2 => (C + 1 + (i - C - 1), 0, t2)), ?_, ?_⟩))
        · exact List.mem_map.mpr ⟨i - C - 1, List.mem_range.mpr (by omega), rfl⟩
        · refine List.mem_map.mpr ⟨t, List.mem_range.mpr ht, ?_⟩
          rw [show C + 1 + (i - C - 1) = i by omega]
  · have hempty : runWork ⟨C, T⟩ N L 1 = [] := by
      rw [runWork, filter_range_not_lt, show N - C = 0 by omega]
      rfl
    rw [hempty]
    constructor
    · intro hx
      exact absurd hx (List.not_mem_nil _)
    · rintro ⟨_, _, h1, h2, _⟩
      omega

/-! ### C8: the contact filter's output shape -/

theorem mem_insertDesc (x z : List Char × Int) :
    ∀ l, z ∈ insertDesc x l ↔ z = x ∨ z ∈ l := by
  intro l
  induction l with
  | nil => simp [insertDesc]
  | cons y ys ih =>
    rw [insertDesc]
    split
    · simp [List.mem_cons]
    · simp [List.mem_cons, ih]
      tauto

theorem pairwise_insertDesc (x : List Char × Int) :
    ∀ l, l.Pairwise (fun (a b : List Char × Int) => b.2 ≤ a.2) →
      (insertDesc x l).Pairwise (fun (a b : List Char × Int) => b.2 ≤ a.2) := by
  intro l
  induction l with
  | nil =>
    intro _
    simp [insertDesc]
  | cons y ys ih =>
    intro h
    rw [List.pairwise_cons] at h
    rw [insertDesc]
    split
    · rename_i hyx
      rw [List.pairwise_cons]
      refine ⟨?_, List.pairwise_cons.mpr h⟩
      intro z hz
      rcases List.mem_cons.mp hz with rfl | hz2
      · exact hyx
      · exact le_trans (h.1 z hz2) hyx
    · rename_i hyx
      rw [List.pairwise_cons]
      refine ⟨?_, ih h.2⟩
      intro z hz
      rcases (mem_insertDesc x z ys).mp hz with rfl | hz2
      · exact le_of_not_le hyx
      · exact h.1 z hz2

theorem sortDesc_pairwise :
    ∀ l, (sortDesc l).Pairwise (fun (a b : List Char × Int) => b.2 ≤ a.2) := by
  intro l
  induction l with
  | nil => simp [sortDesc]
  | cons x xs ih =>
    rw [sortDesc]
    exact pairwise_insertDesc x _ ih

theorem mem_sortDesc (z : List Char × Int) :
    ∀ l, z ∈ sortDesc l → z ∈ l := by
  intro l
  induction l with
  | nil => intro h; exact h
  | cons x xs ih =>
    intro h
    rw [sortDesc] at h
    rcases (mem_insertDesc x z (sortDesc xs)).mp h with rfl | hz
    · exact List.mem_cons_self _ _
    · exact List.mem_cons_of_mem _ (ih hz)

theorem scoreOf_mem (mx : List Char → Bool) (wd : Option (List Char))
    (l : List (List Char)) (p : List Char × Int) (hp : p ∈ validEmails mx wd l) :
    scoreOf mx wd p.1 = p.2 := by
  rw [validEmails, List.mem_filterMap] at hp
  obtain ⟨a, _, hfa⟩ := hp
  rw [Option.map_eq_some'] at hfa
  obtain ⟨s, hs, hps⟩ := hfa
  cases hps
  rw [scoreOf, hs]
  rfl

/-- C8: `filterBusinessEmails` returns at most 6 entries, in descending
order of the score the filter assigns them; and on
`['john@google.com','jane@yahoo.com','test@10minutemail.com']` (with MX
resolving, here the always-true oracle) the disposable-domain address is
excluded and the business-pattern address precedes the personal-provider
address. -/
theorem filterBusinessEmails_sorted_capped (mx : List Char → Bool)
    (wd : Option (List Char)) (l : List (List Char)) :
    (filterBusinessEmails mx wd l).length ≤ 6
    ∧ (filterBusinessEmails mx wd l).Pairwise
        (fun e1 e2 => scoreOf mx wd e2 ≤ scoreOf mx wd e1)
    ∧ filterBusinessEmails (fun _ => true) none
        ["john@google.com".data, "jane@yahoo.com".data, "test@10minutemail.com".data]
        = ["john@google.com".data, "jane@yahoo.com".data] := by
  refine ⟨?_, ?_, by decide⟩
  · rw [filterBusinessEmails, List.length_take]
    exact min_le_left _ _
  · rw [filterBusinessEmails]
    apply List.Pairwise.sublist (List.take_sublist _ _)
    rw [List.pairwise_map]
    have hp := sortDesc_pairwise (validEmails mx wd l)
    refine hp.imp_of_mem ?_
    intro a b ha hb hr
    rw [scoreOf_mem mx wd l a (mem_sortDesc a _ ha),
      scoreOf_mem mx wd l b (mem_sortDesc b _ hb)]
    exact hr

/-! ### C9: the aggregator-domain penalty -/

theorem startsW_self : ∀ s : List Char, startsW s s = true := by
  intro s
  induction s with
  | nil => rfl
  | cons c cs ih => simp [startsW, ih]

theorem endsW_self (s : List Char) : endsW s s = true := by
  rw [endsW]
  exact startsW_self _

/-- C9: an email whose (lowercased) parts are `l@d` with `d` in the
aggregator list, passing every OTHER rejection rule and resolving MX, is
KEPT by the filter loop — pushed with score `tierScore − 50`, the fixed
penalty applied after tiering. Aggregator membership alone never causes
the `continue` path. -/
theorem aggregator_penalty_not_reject (mx : List Char → Bool)
    (wd : Option (List Char)) (e l d : List Char)
    (hsoc : isSocialContact e = false)
    (hparts : splitOnC '@' (lowerL e) = [l, d])
    (hbasic : basicInvalid e l d = false)
    (hdisp : isDisposableDomain d = false)
    (hext : rejectFileExt e = false)
    (hhex : rejectHex l = false)
    (hlong : rejectLongRandom l = false)
    (hdig : rejectDigitHeavy l = false)
    (hsen : rejectSentry l d = false)
    (hplace : rejectPlaceholder e = false)
    (hfill : rejectFiller l = false)
    (hdev : rejectDevDomain d = false)
    (hrep : rejectRepeated l d = false)
    (hmx : mx d = true)
    (hexcl : rejectExcludedLocal l = false)
    (hagg : d ∈ AGGREGATOR_DOMAINS) :
    scoreEmail mx wd e = some (tierScore wd e l d - 50) := by
  have hany : AGGREGATOR_DOMAINS.any (fun a => endsW a d) = true :=
    List.any_eq_true.mpr ⟨d, hagg, endsW_self d⟩
  simp only [scoreEmail, hsoc, Bool.false_eq_true, if_false, hparts, List.headD_cons,
    List.drop_succ_cons, List.drop_zero, hbasic, hdisp, hext, hhex, hlong, hdig, hsen,
    hplace, hfill, hdev, hrep, hmx, hexcl, Bool.not_true, Option.some.injEq]
  rw [aggPenalty, if_pos hany]

/-- Witness for C9 at `bob@mailchimp.com` with the always-true MX oracle:
every non-aggregator rule passes, the domain is in the aggregator list,
and the filter keeps it at tier 100 minus the 50 penalty. -/
theorem aggregator_penalty_not_reject_witness :
    ("mailchimp.com".data ∈ AGGREGATOR_DOMAINS)
    ∧ scoreEmail (fun _ => true) none "bob@mailchimp.com".data
        = some (tierScore none "bob@mailchimp.com".data "bob".data "mailchimp.com".data
            - 50) :=
  ⟨by decide,
    aggregator_penalty_not_reject (fun _ => true) none "bob@mailchimp.com".data
      "bob".data "mailchimp.com".data (by decide) (by decide) (by decide) (by decide)
      (by decide) (by decide) (by decide) (by decide) (by decide) (by decide) (by decide)
      (by decide) (by decide) (by decide) (by decide) (by decide)⟩

end LeadScraper
